import Mathlib

/-!
Verification of the design-pattern demos in `ashjambhulkar/designpatterns`.

Each C++ demo is embedded shallowly: console output is modelled as a
`List String` of printed lines, object identity as natural-number ids,
and mutable objects as explicit state records.  Every definition mirrors
one function of the C++ source; the section headers name the source file.
-/

namespace DesignPatterns

/-! ## Observer demo (`observer.cpp`)

`NewsAgency` keeps `std::vector<Observer*> observers` and a
`std::string latestNews`.  Observers are modelled by their pointer
identity, a natural number.  A notification pass is modelled as the list
of `(observer, message)` deliveries it performs, in order. -/

namespace Observer

structure NewsAgency where
  observers : List Nat
  latestNews : String
deriving DecidableEq, Repr

/-- Fresh `NewsAgency` (empty vector, empty string). -/
def NewsAgency.init : NewsAgency := ⟨[], ""⟩

/-- `attach` does `observers.push_back(observer)`. -/
def NewsAgency.attach (a : NewsAgency) (o : Nat) : NewsAgency :=
  { a with observers := a.observers ++ [o] }

/-- `detach` does `observers.erase(std::remove(begin, end, observer), end)`:
the erase–remove idiom, which removes every element equal to `observer`. -/
def NewsAgency.detach (a : NewsAgency) (o : Nat) : NewsAgency :=
  { a with observers := a.observers.filter (fun x => x != o) }

/-- `notify` walks the observer vector in order and calls
`observer->update(latestNews)` on each; we record the deliveries. -/
def NewsAgency.notify (a : NewsAgency) : List (Nat × String) :=
  a.observers.map (fun o => (o, a.latestNews))

/-- `setNews` stores the news then calls `notify()`; returns the new
state and the deliveries performed. -/
def NewsAgency.setNews (a : NewsAgency) (news : String) :
    NewsAgency × List (Nat × String) :=
  let a' := { a with latestNews := news }
  (a', a'.notify)

/-- Attach a whole list of observers in order. -/
def NewsAgency.attachAll (a : NewsAgency) (os : List Nat) : NewsAgency :=
  os.foldl NewsAgency.attach a

end Observer

/-! ## Strategy demo (`strategy.cpp`)

`GPSNavigator` holds a `shared_ptr<RouteStrategy>`; `navigate()` delegates
to it when set, otherwise prints `"No strategy set."`. -/

namespace Strategy

inductive RouteStrategy
  | shortestRoute
  | fastestRoute
  | scenicRoute
deriving DecidableEq, Repr

/-- `calculateRoute()` of each concrete strategy. -/
def RouteStrategy.calculateRoute : RouteStrategy → List String
  | .shortestRoute => ["Calculating the shortest route."]
  | .fastestRoute => ["Calculating the fastest route."]
  | .scenicRoute => ["Calculating the scenic route."]

structure GPSNavigator where
  strategy : Option RouteStrategy
deriving DecidableEq, Repr

def GPSNavigator.setStrategy (g : GPSNavigator) (s : RouteStrategy) :
    GPSNavigator :=
  { g with strategy := some s }

/-- `navigate()`: `if (strategy) strategy->calculateRoute(); else` print
`"No strategy set."`. -/
def GPSNavigator.navigate (g : GPSNavigator) : List String :=
  match g.strategy with
  | some s => s.calculateRoute
  | none => ["No strategy set."]

end Strategy

/-! ## Command demo (`command.cpp`)

The `Light` receiver has no state; `turnOn`/`turnOff` only print.
`RemoteControl` holds a `shared_ptr<Command>`; `pressButton`/`pressUndo`
run it only when set — the `if (command)` has no `else` branch. -/

namespace CommandDemo

def Light.turnOn : List String := ["Light is ON"]

def Light.turnOff : List String := ["Light is OFF"]

inductive Command
  | lightOn
  | lightOff
deriving DecidableEq, Repr

def Command.execute : Command → List String
  | .lightOn => Light.turnOn
  | .lightOff => Light.turnOff

def Command.undo : Command → List String
  | .lightOn => Light.turnOff
  | .lightOff => Light.turnOn

structure RemoteControl where
  command : Option Command
deriving DecidableEq, Repr

def RemoteControl.setCommand (r : RemoteControl) (c : Command) :
    RemoteControl :=
  { r with command := some c }

/-- `pressButton()`: `if (command) command->execute();` — no `else`. -/
def RemoteControl.pressButton (r : RemoteControl) : List String :=
  match r.command with
  | some c => c.execute
  | none => []

/-- `pressUndo()`: `if (command) command->undo();` — no `else`. -/
def RemoteControl.pressUndo (r : RemoteControl) : List String :=
  match r.command with
  | some c => c.undo
  | none => []

end CommandDemo

/-! ## Delegate demo (`delegate.cpp`)

`Printer` holds a `shared_ptr<PrintStrategy>`; `print(text)` delegates to
it when set, otherwise prints `"No print strategy set!"`. -/

namespace Delegate

inductive PrintStrategy
  | consolePrint
  | filePrint
deriving DecidableEq, Repr

def PrintStrategy.print (s : PrintStrategy) (text : String) : List String :=
  match s with
  | .consolePrint => ["Printing to console: " ++ text]
  | .filePrint => ["Saving to file: " ++ text]

structure Printer where
  strategy : Option PrintStrategy
deriving DecidableEq, Repr

def Printer.setPrintStrategy (p : Printer) (s : PrintStrategy) : Printer :=
  { p with strategy := some s }

/-- `print(text)`: delegate when set, else print `"No print strategy set!"`. -/
def Printer.print (p : Printer) (text : String) : List String :=
  match p.strategy with
  | some s => s.print text
  | none => ["No print strategy set!"]

end Delegate

/-! ## Composite demo (`composite.cpp`)

`Employee` is `Developer` / `Designer` (leaves) or `Manager` (owning an
ordered `std::vector<shared_ptr<Employee>> team`, filled by
`addEmployee` push_back).  `showDetails` prints the node's own line and,
for a manager, recurses over the team in order. -/

namespace Composite

inductive Employee
  | developer (name position : String)
  | designer (name position : String)
  | manager (name : String) (team : List Employee)

/-- `Manager::addEmployee`: `team.push_back(employee)`.  On a leaf the
C++ method does not exist; we return the node unchanged. -/
def Employee.addEmployee (e : Employee) (new : Employee) : Employee :=
  match e with
  | .manager n team => .manager n (team ++ [new])
  | other => other

mutual

/-- `showDetails()`: a leaf prints its own line; a manager prints its own
line and then calls `showDetails` on each team member in order. -/
def Employee.showDetails : Employee → List String
  | .developer n p => ["Developer: " ++ n ++ ", Position: " ++ p]
  | .designer n p => ["Designer: " ++ n ++ ", Position: " ++ p]
  | .manager n team => ("Manager: " ++ n) :: showDetailsList team

def showDetailsList : List Employee → List String
  | [] => []
  | e :: es => e.showDetails ++ showDetailsList es

end

/-- The single line each node prints for itself. -/
def Employee.nodeLine : Employee → String
  | .developer n p => "Developer: " ++ n ++ ", Position: " ++ p
  | .designer n p => "Designer: " ++ n ++ ", Position: " ++ p
  | .manager n _ => "Manager: " ++ n

mutual

/-- Spec-side definition, following the spec's words: the depth-first
pre-order node sequence — each parent before its children, siblings in
insertion order. -/
def preorderSpec : Employee → List Employee
  | .developer n p => [.developer n p]
  | .designer n p => [.designer n p]
  | .manager n team => .manager n team :: preorderList team

def preorderList : List Employee → List Employee
  | [] => []
  | e :: es => preorderSpec e ++ preorderList es

end

mutual

/-- Total number of nodes in the employee tree. -/
def Employee.numNodes : Employee → Nat
  | .developer _ _ => 1
  | .designer _ _ => 1
  | .manager _ team => 1 + numNodesList team

def numNodesList : List Employee → Nat
  | [] => 0
  | e :: es => e.numNodes + numNodesList es

end

end Composite

/-! ## Factory demo (`factory.cpp`, simple-factory variant)

`CarFactory::createCar` maps the selector string to a concrete `Car`, or
`throw std::invalid_argument("Unknown car type")` for anything else. -/

namespace Factory

inductive Car
  | sedan
  | suv
  | sportsCar
deriving DecidableEq, Repr

def Car.drive : Car → String
  | .sedan => "Driving a Sedan."
  | .suv => "Driving an SUV."
  | .sportsCar => "Driving a Sports Car."

/-- `CarFactory::createCar`; the thrown `std::invalid_argument` is
modelled as `Except.error` carrying the exception message. -/
def createCar (t : String) : Except String Car :=
  if t = "Sedan" then .ok .sedan
  else if t = "SUV" then .ok .suv
  else if t = "SportsCar" then .ok .sportsCar
  else .error "Unknown car type"

end Factory

/-! ## Proxy demo (`proxy.cpp`)

`ProxyImage` holds the file name and a `RealImage*` that starts null.
`RealImage`'s constructor calls `loadFromDisk`, printing the loading
line; its `display` prints the displaying line.  We represent a
constructed `RealImage` by its stored file name. -/

namespace Proxy

/-- `RealImage::RealImage` console effect (`loadFromDisk`). -/
def RealImage.ctorOutput (file : String) : List String :=
  ["Loading image from disk: " ++ file]

/-- `RealImage::display` console effect. -/
def RealImage.display (file : String) : List String :=
  ["Displaying image: " ++ file]

structure ProxyImage where
  fileName : String
  realImage : Option String
deriving DecidableEq, Repr

/-- `ProxyImage::ProxyImage(file)`: stores the name, `realImage(nullptr)`. -/
def ProxyImage.make (file : String) : ProxyImage := ⟨file, none⟩

/-- `ProxyImage::display()`: lazily construct the `RealImage` on first
call, then forward to `realImage->display()`. -/
def ProxyImage.display (p : ProxyImage) : ProxyImage × List String :=
  match p.realImage with
  | none =>
      ({ p with realImage := some p.fileName },
       RealImage.ctorOutput p.fileName ++ RealImage.display p.fileName)
  | some f => (p, RealImage.display f)

/-- `display()` called `n` times in a row, concatenating the output. -/
def ProxyImage.displayN : Nat → ProxyImage → ProxyImage × List String
  | 0, p => (p, [])
  | n + 1, p =>
      ((ProxyImage.displayN n p.display.1).1,
       p.display.2 ++ (ProxyImage.displayN n p.display.1).2)

end Proxy

/-! ## Singleton demo (`singleton.cpp`, plain variant)

`Singleton::instance` is a static pointer, initially null;
`getInstance()` lazily allocates, printing
`"Singleton instance created."` from the constructor.  The single heap
allocation is modelled by id `0`; the process state carries the pointer
and the console output so far. -/

namespace Singleton

structure ProcState where
  inst : Option Nat
  output : List String
deriving DecidableEq, Repr

/-- Static initialisation: `Singleton* Singleton::instance = nullptr;`. -/
def ProcState.init : ProcState := ⟨none, []⟩

/-- `Singleton::getInstance()`: lazy initialisation, returning the
pointer (and the updated process state). -/
def getInstance (s : ProcState) : Nat × ProcState :=
  match s.inst with
  | none => (0, ⟨some 0, s.output ++ ["Singleton instance created."]⟩)
  | some i => (i, s)

/-- `getInstance()` called `n` times in a row; collects the returned
pointers in call order. -/
def callN : Nat → ProcState → List Nat × ProcState
  | 0, s => ([], s)
  | n + 1, s =>
      ((getInstance s).1 :: (callN n (getInstance s).2).1,
       (callN n (getInstance s).2).2)

end Singleton

/-! ## Prototype demo (`prototype.cpp`)

`Circle` / `Rectangle` hold `int` attributes; `clone()` is
`make_shared<...>(*this)` through the copy constructor, i.e. a fresh
allocation carrying equal attributes.  Object identity is a natural
number; an allocator invariant says every live object's id is below the
next fresh id. -/

namespace Prototype

structure Circle where
  id : Nat
  radius : Int
deriving DecidableEq, Repr

/-- `Circle::clone`: fresh allocation, attributes copied by the copy
constructor. -/
def Circle.clone (c : Circle) (fresh : Nat) : Circle := ⟨fresh, c.radius⟩

def Circle.draw (c : Circle) : String :=
  "Drawing a Circle with radius " ++ toString c.radius

structure Rectangle where
  id : Nat
  width : Int
  height : Int
deriving DecidableEq, Repr

/-- `Rectangle::clone`: fresh allocation, attributes copied by the copy
constructor. -/
def Rectangle.clone (r : Rectangle) (fresh : Nat) : Rectangle :=
  ⟨fresh, r.width, r.height⟩

def Rectangle.draw (r : Rectangle) : String :=
  "Drawing a Rectangle with width " ++ toString r.width ++
    " and height " ++ toString r.height

end Prototype

/-! ## Decorator demo (`decorator.cpp`)

`getCost()` computes in C++ `double`.  We model binary64 exactly: a
finite positive double is a dyadic rational `m / 2^s`, every decimal
literal is the nearest double to its decimal value, and `+` rounds the
exact sum to 53 significant bits with round-half-to-even (the demo's
values stay far inside the normal exponent range, so overflow and
subnormals never arise). -/

namespace Decorator

/-- A positive dyadic rational `m / 2^s`. -/
structure Dyadic where
  m : Nat
  s : Int
deriving DecidableEq, Repr

/-- The exact rational value of a dyadic. -/
def Dyadic.toRat (d : Dyadic) : ℚ := (d.m : ℚ) * (2 : ℚ) ^ (-d.s)

/-- Number of bits of `n` (`⌊log₂ n⌋ + 1` for `n ≥ 1`), by fuel. -/
def bitLenAux : Nat → Nat → Nat
  | 0, _ => 0
  | fuel + 1, n => if n = 0 then 0 else bitLenAux fuel (n / 2) + 1

def bitLength (n : Nat) : Nat := bitLenAux 256 n

/-- Round `a / b` to the nearest integer, ties to even. -/
def roundHalfEven (a b : Nat) : Nat :=
  let q := a / b
  let r := a % b
  if 2 * r > b then q + 1
  else if 2 * r = b ∧ q % 2 = 1 then q + 1
  else q

/-- `⌊log₂ (a / b)⌋` for positive `a`, `b`. -/
def floorLog2 (a b : Nat) : Int :=
  let g : Int := (bitLength a : Int) - (bitLength b : Int)
  if g ≥ 0 then
    if b * 2 ^ g.toNat ≤ a then g else g - 1
  else
    if b ≤ a * 2 ^ (-g).toNat then g else g - 1

/-- The binary64 value nearest to the positive rational `a / b`:
53 significant bits, round-half-to-even. -/
def nearestDouble (a b : Nat) : Dyadic :=
  let e := floorLog2 a b
  let t : Int := 52 - e
  let m :=
    if t ≥ 0 then roundHalfEven (a * 2 ^ t.toNat) b
    else roundHalfEven a (b * 2 ^ (-t).toNat)
  ⟨m, t⟩

/-- IEEE `double` addition: correctly rounded exact sum. -/
def addDouble (x y : Dyadic) : Dyadic :=
  let s := max x.s y.s
  let n := x.m * 2 ^ (s - x.s).toNat + y.m * 2 ^ (s - y.s).toNat
  if s ≥ 0 then nearestDouble n (2 ^ s.toNat)
  else nearestDouble (n * 2 ^ (-s).toNat) 1

/-- A decorated coffee: `PlainCoffee` possibly wrapped in decorators
(innermost component first, mirroring the `shared_ptr` chain). -/
inductive Coffee
  | plainCoffee
  | milkDecorator (coffee : Coffee)
  | sugarDecorator (coffee : Coffee)
  | caramelDecorator (coffee : Coffee)

/-- `getCost()`: `PlainCoffee` returns `2.0`; each decorator returns
`coffee->getCost() + <addend literal>` in `double` arithmetic. -/
def Coffee.getCost : Coffee → Dyadic
  | .plainCoffee => nearestDouble 2 1
  | .milkDecorator c => addDouble c.getCost (nearestDouble 1 2)
  | .sugarDecorator c => addDouble c.getCost (nearestDouble 1 5)
  | .caramelDecorator c => addDouble c.getCost (nearestDouble 7 10)

/-- `getDescription()`: `"Plain Coffee"` plus one suffix per decorator. -/
def Coffee.getDescription : Coffee → String
  | .plainCoffee => "Plain Coffee"
  | .milkDecorator c => c.getDescription ++ ", Milk"
  | .sugarDecorator c => c.getDescription ++ ", Sugar"
  | .caramelDecorator c => c.getDescription ++ ", Caramel"

/-- The object built in `main`: plain coffee wrapped with Milk, then
Sugar, then Caramel. -/
def myCoffee : Coffee :=
  .caramelDecorator (.sugarDecorator (.milkDecorator .plainCoffee))

end Decorator

/-! ## Thread-safe Singleton (`singleton.cpp`, `ThreadSafeSingleton`)

`getInstance()` is `lock_guard<mutex> lock(mtx); if (instance == nullptr)
instance = new ThreadSafeSingleton(); return instance;`.  We model an
arbitrary set of threads (indexed by `Nat`) interleaving the steps of
this body: acquire the mutex (only when free), check the instance
pointer, construct when it was null, read the pointer for the return
value, release the mutex.  Allocation addresses are modelled by the
construction counter; `res` records each thread's returned pointer. -/

namespace ThreadSafe

/-- Program counter of one thread through `getInstance()`. -/
inductive PC
  | start      -- before `lock_guard` acquires the mutex
  | inCrit     -- mutex held, about to evaluate `instance == nullptr`
  | construct  -- mutex held, saw null, about to run `new ThreadSafeSingleton()`
  | readRet    -- mutex held, about to read `instance` for the return value
  | release    -- mutex held, return value recorded, about to unlock
  | done       -- returned
deriving DecidableEq, Repr

structure TState where
  lockHolder : Option Nat
  inst : Option Nat
  constructions : Nat
  pc : Nat → PC
  res : Nat → Option Nat

/-- All threads at `start`; `instance = nullptr`; mutex free; nothing
constructed. -/
def TState.init : TState := ⟨none, none, 0, fun _ => .start, fun _ => none⟩

/-- One interleaving step: some thread advances by one atomic action. -/
inductive Step : TState → TState → Prop
  | acquire (s : TState) (t : Nat)
      (h1 : s.pc t = .start) (h2 : s.lockHolder = none) :
      Step s { s with lockHolder := some t,
                      pc := Function.update s.pc t .inCrit }
  | checkNull (s : TState) (t : Nat)
      (h1 : s.pc t = .inCrit) (h2 : s.lockHolder = some t)
      (h3 : s.inst = none) :
      Step s { s with pc := Function.update s.pc t .construct }
  | checkSome (s : TState) (t : Nat) (i : Nat)
      (h1 : s.pc t = .inCrit) (h2 : s.lockHolder = some t)
      (h3 : s.inst = some i) :
      Step s { s with pc := Function.update s.pc t .readRet }
  | constructStep (s : TState) (t : Nat)
      (h1 : s.pc t = .construct) (h2 : s.lockHolder = some t) :
      Step s { s with inst := some s.constructions,
                      constructions := s.constructions + 1,
                      pc := Function.update s.pc t .readRet }
  | readStep (s : TState) (t : Nat) (i : Nat)
      (h1 : s.pc t = .readRet) (h2 : s.lockHolder = some t)
      (h3 : s.inst = some i) :
      Step s { s with res := Function.update s.res t (some i),
                      pc := Function.update s.pc t .release }
  | releaseStep (s : TState) (t : Nat)
      (h1 : s.pc t = .release) (h2 : s.lockHolder = some t) :
      Step s { s with lockHolder := none,
                      pc := Function.update s.pc t .done }

/-- States reachable from the initial state by interleaving. -/
def Reachable (s : TState) : Prop :=
  Relation.ReflTransGen Step TState.init s

/-- The thread is inside the mutex-protected check-and-construct
section. -/
def critPC : PC → Prop :=
  fun p => p = .inCrit ∨ p = .construct ∨ p = .readRet ∨ p = .release

/-- Inductive invariant of the interleaving system. -/
def Inv (s : TState) : Prop :=
  (∀ t, critPC (s.pc t) → s.lockHolder = some t) ∧
  (∀ t, s.pc t = .construct → s.inst = none) ∧
  (s.constructions = if s.inst = none then 0 else 1) ∧
  (∀ t, s.pc t = .readRet → s.inst ≠ none) ∧
  (∀ t, s.pc t = .release ∨ s.pc t = .done →
    s.inst ≠ none ∧ s.res t = s.inst)

/-- A concrete five-step execution of one thread (thread 0), used to
exhibit a completed reachable state. -/
def w1 : TState :=
  { TState.init with lockHolder := some 0,
                     pc := Function.update TState.init.pc 0 .inCrit }

def w2 : TState := { w1 with pc := Function.update w1.pc 0 .construct }

def w3 : TState :=
  { w2 with inst := some w2.constructions,
            constructions := w2.constructions + 1,
            pc := Function.update w2.pc 0 .readRet }

def w4 : TState :=
  { w3 with res := Function.update w3.res 0 (some 0),
            pc := Function.update w3.pc 0 .release }

def w5 : TState :=
  { w4 with lockHolder := none, pc := Function.update w4.pc 0 .done }

end ThreadSafe

/-! # Theorems -/

namespace Observer

theorem attachAll_observers (a : NewsAgency) (os : List Nat) :
    (a.attachAll os).observers = a.observers ++ os := by
  induction os generalizing a with
  | nil => simp [NewsAgency.attachAll]
  | cons o os ih =>
      simp [NewsAgency.attachAll] at ih ⊢
      rw [ih]
      simp [NewsAgency.attach]

theorem attachAll_latestNews (a : NewsAgency) (os : List Nat) :
    (a.attachAll os).latestNews = a.latestNews := by
  induction os generalizing a with
  | nil => rfl
  | cons o os ih =>
      simp [NewsAgency.attachAll] at ih ⊢
      rw [ih]
      rfl

theorem count_pair_map (os : List Nat) (v : String) (x : Nat) :
    (os.map (fun y => (y, v))).count (x, v) = os.count x := by
  induction os with
  | nil => rfl
  | cons a os ih =>
      simp only [List.map_cons, List.count_cons, ih, Prod.mk.injEq,
        beq_iff_eq]
      simp

theorem detach_count_self (a : NewsAgency) (o : Nat) :
    (a.detach o).observers.count o = 0 := by
  simp [NewsAgency.detach, List.count_eq_zero, List.mem_filter]

theorem detach_count_other (a : NewsAgency) (o o' : Nat) (h : o' ≠ o) :
    (a.detach o).observers.count o' = a.observers.count o' := by
  unfold NewsAgency.detach
  simp only [List.count_filter]
  simp [h]

theorem detach_of_not_mem (a : NewsAgency) (o : Nat)
    (h : o ∉ a.observers) : a.detach o = a := by
  unfold NewsAgency.detach
  have hfe : a.observers.filter (fun x => x != o) = a.observers := by
    apply List.filter_eq_self.mpr
    intro x hx
    have hxo : x ≠ o := fun he => h (he ▸ hx)
    simp [hxo]
  rw [hfe]

end Observer

namespace Composite

mutual

theorem showDetails_eq_preorder :
    ∀ e : Employee, e.showDetails = (preorderSpec e).map Employee.nodeLine
  | .developer _ _ => rfl
  | .designer _ _ => rfl
  | .manager n team => by
      rw [Employee.showDetails, preorderSpec, List.map_cons,
        showDetailsList_eq_preorder team]
      rfl

theorem showDetailsList_eq_preorder :
    ∀ l : List Employee, showDetailsList l = (preorderList l).map Employee.nodeLine
  | [] => rfl
  | e :: es => by
      rw [showDetailsList, preorderList, List.map_append,
        showDetails_eq_preorder e, showDetailsList_eq_preorder es]

end

mutual

theorem showDetails_length :
    ∀ e : Employee, e.showDetails.length = e.numNodes
  | .developer _ _ => rfl
  | .designer _ _ => rfl
  | .manager n team => by
      rw [Employee.showDetails, Employee.numNodes, List.length_cons,
        showDetailsList_length team]
      omega

theorem showDetailsList_length :
    ∀ l : List Employee, (showDetailsList l).length = numNodesList l
  | [] => rfl
  | e :: es => by
      rw [showDetailsList, numNodesList, List.length_append,
        showDetails_length e, showDetailsList_length es]

end

end Composite

namespace Singleton

theorem getInstance_of_some (s : ProcState) (i : Nat) (h : s.inst = some i) :
    getInstance s = (i, s) := by
  unfold getInstance
  rw [h]

theorem callN_of_some (m : Nat) (s : ProcState) (i : Nat) (h : s.inst = some i) :
    callN m s = (List.replicate m i, s) := by
  induction m with
  | zero => rfl
  | succ m ih =>
      rw [callN]
      simp only [getInstance_of_some s i h]
      rw [ih]
      rfl

end Singleton

namespace Proxy

theorem display_of_loaded (p : ProxyImage) (f : String)
    (h : p.realImage = some f) :
    p.display = (p, ["Displaying image: " ++ f]) := by
  unfold ProxyImage.display
  rw [h]
  rfl

theorem displayN_of_loaded (n : Nat) (p : ProxyImage) (f : String)
    (h : p.realImage = some f) :
    ProxyImage.displayN n p =
      (p, List.replicate n ("Displaying image: " ++ f)) := by
  induction n with
  | zero => rfl
  | succ n ih =>
      rw [ProxyImage.displayN]
      simp only [display_of_loaded p f h]
      rw [ih]
      rfl

end Proxy

namespace ThreadSafe

theorem inv_init : Inv TState.init := by
  refine ⟨?_, ?_, ?_, ?_, ?_⟩
  · intro t ht
    simp [TState.init, critPC] at ht
  · intro t ht
    simp [TState.init] at ht
  · simp [TState.init]
  · intro t ht
    simp [TState.init] at ht
  · intro t ht
    simp [TState.init] at ht

theorem inv_preserved (s s' : TState) (hs : Inv s) (hstep : Step s s') :
    Inv s' := by
  obtain ⟨hA, hB, hC, hD, hE⟩ := hs
  cases hstep with
  | acquire t h1 h2 =>
      refine ⟨?_, ?_, hC, ?_, ?_⟩
      · intro u hu
        dsimp only at hu ⊢
        rcases eq_or_ne u t with rfl | hut
        · rfl
        · rw [Function.update_noteq hut] at hu
          have hlu := hA u hu
          rw [h2] at hlu
          exact absurd hlu (by simp)
      · intro u hu
        dsimp only at hu ⊢
        rcases eq_or_ne u t with rfl | hut
        · rw [Function.update_same] at hu
          exact absurd hu (by decide)
        · rw [Function.update_noteq hut] at hu
          exact hB u hu
      · intro u hu
        dsimp only at hu ⊢
        rcases eq_or_ne u t with rfl | hut
        · rw [Function.update_same] at hu
          exact absurd hu (by decide)
        · rw [Function.update_noteq hut] at hu
          exact hD u hu
      · intro u hu
        dsimp only at hu ⊢
        rcases eq_or_ne u t with rfl | hut
        · rw [Function.update_same] at hu
          rcases hu with hu | hu <;> exact absurd hu (by decide)
        · rw [Function.update_noteq hut] at hu
          exact hE u hu
  | checkNull t h1 h2 h3 =>
      refine ⟨?_, ?_, hC, ?_, ?_⟩
      · intro u hu
        dsimp only at hu ⊢
        rcases eq_or_ne u t with rfl | hut
        · exact h2
        · rw [Function.update_noteq hut] at hu
          exact hA u hu
      · intro u hu
        dsimp only at hu ⊢
        exact h3
      · intro u hu
        dsimp only at hu ⊢
        rcases eq_or_ne u t with rfl | hut
        · rw [Function.update_same] at hu
          exact absurd hu (by decide)
        · rw [Function.update_noteq hut] at hu
          exact hD u hu
      · intro u hu
        dsimp only at hu ⊢
        rcases eq_or_ne u t with rfl | hut
        · rw [Function.update_same] at hu
          rcases hu with hu | hu <;> exact absurd hu (by decide)
        · rw [Function.update_noteq hut] at hu
          exact hE u hu
  | checkSome t i h1 h2 h3 =>
      refine ⟨?_, ?_, hC, ?_, ?_⟩
      · intro u hu
        dsimp only at hu ⊢
        rcases eq_or_ne u t with rfl | hut
        · exact h2
        · rw [Function.update_noteq hut] at hu
          exact hA u hu
      · intro u hu
        dsimp only at hu ⊢
        rcases eq_or_ne u t with rfl | hut
        · rw [Function.update_same] at hu
          exact absurd hu (by decide)
        · rw [Function.update_noteq hut] at hu
          exact hB u hu
      · intro u hu
        dsimp only at hu ⊢
        rw [h3]
        simp
      · intro u hu
        dsimp only at hu ⊢
        rcases eq_or_ne u t with rfl | hut
        · rw [Function.update_same] at hu
          rcases hu with hu | hu <;> exact absurd hu (by decide)
        · rw [Function.update_noteq hut] at hu
          exact hE u hu
  | constructStep t h1 h2 =>
      have hnull : s.inst = none := hB t h1
      refine ⟨?_, ?_, ?_, ?_, ?_⟩
      · intro u hu
        dsimp only at hu ⊢
        rcases eq_or_ne u t with rfl | hut
        · exact h2
        · rw [Function.update_noteq hut] at hu
          exact hA u hu
      · intro u hu
        dsimp only at hu ⊢
        rcases eq_or_ne u t with rfl | hut
        · rw [Function.update_same] at hu
          exact absurd hu (by decide)
        · rw [Function.update_noteq hut] at hu
          have := hA u (Or.inr (Or.inl hu))
          rw [h2] at this
          exact absurd (Option.some.inj this) (Ne.symm hut)
      · dsimp only
        rw [hC, hnull]
        simp
      · intro u hu
        dsimp only at hu ⊢
        simp
      · intro u hu
        dsimp only at hu ⊢
        rcases eq_or_ne u t with rfl | hut
        · rw [Function.update_same] at hu
          rcases hu with hu | hu <;> exact absurd hu (by decide)
        · rw [Function.update_noteq hut] at hu
          rcases hu with hu | hu
          · have := hA u (Or.inr (Or.inr (Or.inr hu)))
            rw [h2] at this
            exact absurd (Option.some.inj this) (Ne.symm hut)
          · have := (hE u (Or.inr hu)).1
            exact absurd hnull this
  | readStep t i h1 h2 h3 =>
      refine ⟨?_, ?_, hC, ?_, ?_⟩
      · intro u hu
        dsimp only at hu ⊢
        rcases eq_or_ne u t with rfl | hut
        · exact h2
        · rw [Function.update_noteq hut] at hu
          exact hA u hu
      · intro u hu
        dsimp only at hu ⊢
        rcases eq_or_ne u t with rfl | hut
        · rw [Function.update_same] at hu
          exact absurd hu (by decide)
        · rw [Function.update_noteq hut] at hu
          exact hB u hu
      · intro u hu
        dsimp only at hu ⊢
        rcases eq_or_ne u t with rfl | hut
        · rw [Function.update_same] at hu
          exact absurd hu (by decide)
        · rw [Function.update_noteq hut] at hu
          exact hD u hu
      · intro u hu
        dsimp only at hu ⊢
        rcases eq_or_ne u t with rfl | hut
        · rw [Function.update_same]
          rw [h3]
          simp
        · rw [Function.update_noteq hut] at hu
          rw [Function.update_noteq hut]
          exact hE u hu
  | releaseStep t h1 h2 =>
      refine ⟨?_, ?_, hC, ?_, ?_⟩
      · intro u hu
        dsimp only at hu ⊢
        rcases eq_or_ne u t with rfl | hut
        · rw [Function.update_same] at hu
          rcases hu with hu | hu | hu | hu <;> exact absurd hu (by decide)
        · rw [Function.update_noteq hut] at hu
          have := hA u hu
          rw [h2] at this
          exact absurd (Option.some.inj this) (Ne.symm hut)
      · intro u hu
        dsimp only at hu ⊢
        rcases eq_or_ne u t with rfl | hut
        · rw [Function.update_same] at hu
          exact absurd hu (by decide)
        · rw [Function.update_noteq hut] at hu
          exact hB u hu
      · intro u hu
        dsimp only at hu ⊢
        rcases eq_or_ne u t with rfl | hut
        · rw [Function.update_same] at hu
          exact absurd hu (by decide)
        · rw [Function.update_noteq hut] at hu
          exact hD u hu
      · intro u hu
        dsimp only at hu ⊢
        rcases eq_or_ne u t with rfl | hut
        · rw [Function.update_same] at hu
          exact hE u (Or.inl h1)
        · rw [Function.update_noteq hut] at hu
          exact hE u hu

theorem inv_of_reachable (s : TState) (h : Reachable s) : Inv s := by
  unfold Reachable at h
  induction h with
  | refl => exact inv_init
  | tail _ hstep ih => exact inv_preserved _ _ ih hstep

end ThreadSafe

/-! ## Claim theorems -/

/-- C1: after attaching `k` distinct observers to a `NewsAgency`,
`setNews v` stores `v` as the subject state and delivers `v` to all `k`
observers, each exactly once, synchronously in attachment order; after
detaching one of the attached observers, a subsequent `setNews v2`
delivers `v2` to exactly `k − 1` observers (the remaining ones, still in
attachment order). -/
theorem claim_C1_observer_fanout (os : List Nat) (o : Nat) (v v2 : String)
    (hnd : os.Nodup) (ho : o ∈ os) :
    (((Observer.NewsAgency.init.attachAll os).setNews v).1.latestNews = v) ∧
    ((Observer.NewsAgency.init.attachAll os).setNews v).2 =
      os.map (fun x => (x, v)) ∧
    (∀ x ∈ os,
      (((Observer.NewsAgency.init.attachAll os).setNews v).2).count (x, v) = 1) ∧
    (((((Observer.NewsAgency.init.attachAll os).setNews v).1.detach o).setNews
        v2).2 = (os.erase o).map (fun x => (x, v2))) ∧
    (((((Observer.NewsAgency.init.attachAll os).setNews v).1.detach o).setNews
        v2).2).length = os.length - 1 := by
  have hobs : (Observer.NewsAgency.init.attachAll os).observers = os := by
    rw [Observer.attachAll_observers]
    rfl
  refine ⟨rfl, ?_, ?_, ?_, ?_⟩
  · unfold Observer.NewsAgency.setNews Observer.NewsAgency.notify
    simp only [hobs]
  · intro x hx
    unfold Observer.NewsAgency.setNews Observer.NewsAgency.notify
    simp only [hobs]
    rw [Observer.count_pair_map os v x]
    exact List.count_eq_one_of_mem hnd hx
  · unfold Observer.NewsAgency.setNews Observer.NewsAgency.notify
      Observer.NewsAgency.detach
    simp only [hobs]
    rw [hnd.erase_eq_filter o]
  · unfold Observer.NewsAgency.setNews Observer.NewsAgency.notify
      Observer.NewsAgency.detach
    simp only [hobs, List.length_map]
    rw [← hnd.erase_eq_filter o, List.length_erase_of_mem ho]

theorem claim_C1_observer_fanout_witness :
    (([1, 2, 3] : List Nat).Nodup ∧ 2 ∈ ([1, 2, 3] : List Nat)) ∧
    ((((Observer.NewsAgency.init.attachAll [1, 2, 3]).setNews "a").1.latestNews
        = "a") ∧
    ((Observer.NewsAgency.init.attachAll [1, 2, 3]).setNews "a").2 =
      [1, 2, 3].map (fun x => (x, "a")) ∧
    (∀ x ∈ ([1, 2, 3] : List Nat),
      ((((Observer.NewsAgency.init.attachAll [1, 2, 3]).setNews "a").2)).count
        (x, "a") = 1) ∧
    ((((((Observer.NewsAgency.init.attachAll [1, 2, 3]).setNews "a").1.detach
        2).setNews "b").2 = (([1, 2, 3] : List Nat).erase 2).map
          (fun x => (x, "b")))) ∧
    ((((((Observer.NewsAgency.init.attachAll [1, 2, 3]).setNews "a").1.detach
        2).setNews "b").2)).length = ([1, 2, 3] : List Nat).length - 1) :=
  ⟨⟨by decide, by decide⟩,
   claim_C1_observer_fanout [1, 2, 3] 2 "a" "b" (by decide) (by decide)⟩

/-- C2 counterexample: the claim says `detach` removes only the first
matching reference, so attaching the same observer twice and detaching
once should leave one occurrence.  In the code `detach` uses the
erase–remove idiom, which removes every occurrence: the observer list
ends up empty, not `[7]`. -/
theorem claim_C2_counterexample :
    ((Observer.NewsAgency.init.attach 7 |>.attach 7).detach 7).observers = []
      ∧ (Observer.NewsAgency.init.attach 7 |>.attach 7).observers = [7, 7] := by
  constructor <;> rfl

/-- C2 (amended): `detach o` removes every matching reference to `o`
from the observer list (so after attaching the same observer twice, a
single `detach` leaves zero occurrences), leaves the multiplicity of
every other observer unchanged, and is a no-op if `o` is absent. -/
theorem claim_C2_detach_removes_all (a : Observer.NewsAgency) (o : Nat) :
    (a.detach o).observers.count o = 0 ∧
    (∀ o', o' ≠ o →
      (a.detach o).observers.count o' = a.observers.count o') ∧
    (o ∉ a.observers → a.detach o = a) :=
  ⟨Observer.detach_count_self a o,
   fun o' h => Observer.detach_count_other a o o' h,
   Observer.detach_of_not_mem a o⟩

theorem claim_C2_detach_removes_all_witness :
    ((Observer.NewsAgency.init.attach 7 |>.attach 7).detach 7).observers.count
      7 = 0 ∧
    (∀ o', o' ≠ 7 →
      ((Observer.NewsAgency.init.attach 7 |>.attach 7).detach 7).observers.count
        o' = (Observer.NewsAgency.init.attach 7 |>.attach 7).observers.count
          o') ∧
    (7 ∉ (Observer.NewsAgency.init.attach 7 |>.attach 7).observers →
      (Observer.NewsAgency.init.attach 7 |>.attach 7).detach 7 =
        (Observer.NewsAgency.init.attach 7 |>.attach 7)) :=
  claim_C2_detach_removes_all (Observer.NewsAgency.init.attach 7 |>.attach 7) 7

/-- C3 counterexample: with no command assigned, `RemoteControl`'s
`pressButton()` and `pressUndo()` print nothing at all (the `if
(command)` has no `else` branch), so no "nothing configured" notice
appears, contradicting the claim for the Command demo. -/
theorem claim_C3_counterexample :
    CommandDemo.RemoteControl.pressButton ⟨none⟩ = ([] : List String) ∧
    CommandDemo.RemoteControl.pressUndo ⟨none⟩ = ([] : List String) :=
  ⟨rfl, rfl⟩

/-- C3 (amended): with nothing assigned, the Strategy demo's
`navigate()` prints `"No strategy set."` and the Delegate demo's
`print()` prints `"No print strategy set!"` — a graceful notice and no
other effect; the Command demo's `pressButton()`/`pressUndo()` also do
not fail but print nothing at all (silent no-op rather than a notice). -/
theorem claim_C3_unconfigured_behaviour :
    Strategy.GPSNavigator.navigate ⟨none⟩ = ["No strategy set."] ∧
    (∀ t : String,
      Delegate.Printer.print ⟨none⟩ t = ["No print strategy set!"]) ∧
    CommandDemo.RemoteControl.pressButton ⟨none⟩ = ([] : List String) ∧
    CommandDemo.RemoteControl.pressUndo ⟨none⟩ = ([] : List String) :=
  ⟨rfl, fun _ => rfl, rfl, rfl⟩

/-- C4: `showDetails()` on an employee tree with `n` total nodes prints
exactly `n` lines, one per node, in depth-first pre-order — each parent
before its children, siblings in insertion order — i.e. the output is
exactly the spec-side pre-order node sequence mapped to each node's own
line. -/
theorem claim_C4_composite_showDetails (e : Composite.Employee) :
    e.showDetails = (Composite.preorderSpec e).map Composite.Employee.nodeLine
      ∧ e.showDetails.length = e.numNodes :=
  ⟨Composite.showDetails_eq_preorder e, Composite.showDetails_length e⟩

/-- C5: `CarFactory::createCar("Sedan")` returns a `Sedan` whose
`drive()` prints `"Driving a Sedan."`; for any selector outside
`{"Sedan", "SUV", "SportsCar"}`, `createCar` raises
`invalid_argument("Unknown car type")` and constructs no car. -/
theorem claim_C5_factory (t : String) (h1 : t ≠ "Sedan") (h2 : t ≠ "SUV")
    (h3 : t ≠ "SportsCar") :
    Factory.createCar "Sedan" = .ok .sedan ∧
    Factory.Car.drive .sedan = "Driving a Sedan." ∧
    Factory.createCar t = .error "Unknown car type" := by
  refine ⟨rfl, rfl, ?_⟩
  unfold Factory.createCar
  rw [if_neg h1, if_neg h2, if_neg h3]

theorem claim_C5_factory_witness :
    (("Hatchback" : String) ≠ "Sedan" ∧ ("Hatchback" : String) ≠ "SUV" ∧
      ("Hatchback" : String) ≠ "SportsCar") ∧
    (Factory.createCar "Sedan" = .ok .sedan ∧
     Factory.Car.drive .sedan = "Driving a Sedan." ∧
     Factory.createCar "Hatchback" = .error "Unknown car type") :=
  ⟨⟨by decide, by decide, by decide⟩,
   claim_C5_factory "Hatchback" (by decide) (by decide) (by decide)⟩

/-- C6: on a fresh `ProxyImage`, the first `display()` prints the
loading line and then the displaying line (constructing and caching the
real subject); each of the `n` subsequent `display()` calls on the same
proxy prints only the displaying line and leaves the proxy unchanged. -/
theorem claim_C6_proxy_lazy_init (f : String) (n : Nat) :
    (Proxy.ProxyImage.make f).display =
      (⟨f, some f⟩,
        ["Loading image from disk: " ++ f, "Displaying image: " ++ f]) ∧
    Proxy.ProxyImage.displayN n ((Proxy.ProxyImage.make f).display.1) =
      (((Proxy.ProxyImage.make f).display.1),
        List.replicate n ("Displaying image: " ++ f)) := by
  refine ⟨rfl, ?_⟩
  exact Proxy.displayN_of_loaded n _ f rfl

/-- C7: under sequential calls, every one of `n ≥ 1` calls to
`Singleton::getInstance()` returns the pointer returned by the first
call, and `"Singleton instance created."` is printed exactly once
regardless of how many calls are made. -/
theorem claim_C7_singleton (n : Nat) (h : 1 ≤ n) :
    (Singleton.callN n Singleton.ProcState.init).1 = List.replicate n 0 ∧
    ((Singleton.callN n Singleton.ProcState.init).2.output).count
      "Singleton instance created." = 1 := by
  obtain ⟨m, rfl⟩ : ∃ m, n = m + 1 := ⟨n - 1, by omega⟩
  rw [Singleton.callN]
  have hg : Singleton.getInstance Singleton.ProcState.init =
      (0, ⟨some 0, ["Singleton instance created."]⟩) := rfl
  simp only [hg]
  rw [Singleton.callN_of_some m ⟨some 0, ["Singleton instance created."]⟩
    0 rfl]
  exact ⟨rfl, by simp⟩

theorem claim_C7_singleton_witness :
    1 ≤ 3 ∧
    ((Singleton.callN 3 Singleton.ProcState.init).1 =
        List.replicate 3 0 ∧
      ((Singleton.callN 3 Singleton.ProcState.init).2.output).count
        "Singleton instance created." = 1) :=
  ⟨by decide, claim_C7_singleton 3 (by decide)⟩

/-- C8 counterexample: the claim says the fully decorated coffee's
`getCost()` returns 3.4.  In exact binary64 arithmetic
`((2.0 + 0.5) + 0.2) + 0.7` is `7656119366529844 / 2^51`
(≈ 3.4000000000000004), one ulp above the double nearest 3.4
(`7656119366529843 / 2^51`), and in particular not the rational 17/5. -/
theorem claim_C8_counterexample :
    Decorator.myCoffee.getCost ≠ Decorator.nearestDouble 17 5 ∧
    Decorator.myCoffee.getCost.toRat ≠ (17 : ℚ) / 5 := by
  constructor
  · decide
  · have h : Decorator.myCoffee.getCost = ⟨7656119366529844, 51⟩ := by decide
    rw [h]
    simp only [Decorator.Dyadic.toRat]
    norm_num

/-- C8 (amended): wrapping `PlainCoffee` (2.0) with Milk (+0.5), Sugar
(+0.2), Caramel (+0.7) in that order yields `getCost()` equal to the
exact binary64 evaluation `17/5 + 1/(5·2^49)` (≈ 3.4000000000000004,
which prints as `3.4` at default stream precision), and
`getDescription()` equal to `"Plain Coffee, Milk, Sugar, Caramel"`. -/
theorem claim_C8_decorated_coffee :
    Decorator.myCoffee.getDescription = "Plain Coffee, Milk, Sugar, Caramel" ∧
    Decorator.myCoffee.getCost.toRat = 17 / 5 + 1 / (5 * 2 ^ 49) := by
  constructor
  · rfl
  · have h : Decorator.myCoffee.getCost = ⟨7656119366529844, 51⟩ := by decide
    rw [h]
    simp only [Decorator.Dyadic.toRat]
    norm_num

/-- C9: in the interleaving model of `ThreadSafeSingleton::getInstance()`,
the mutex serializes the check-and-construct section (at most one thread
is ever inside it), at most one construction ever occurs, and once any
caller has returned, exactly one construction has occurred and every
returned caller holds the same pointer — the stored instance. -/
theorem claim_C9_threadsafe_singleton (s : ThreadSafe.TState)
    (h : ThreadSafe.Reachable s) :
    (∀ t u, ThreadSafe.critPC (s.pc t) → ThreadSafe.critPC (s.pc u) →
      t = u) ∧
    s.constructions ≤ 1 ∧
    (∀ t, s.pc t = .done →
      s.constructions = 1 ∧ s.res t = s.inst) ∧
    (∀ t u, s.pc t = .done → s.pc u = .done → s.res t = s.res u) := by
  obtain ⟨hA, hB, hC, hD, hE⟩ := ThreadSafe.inv_of_reachable s h
  refine ⟨?_, ?_, ?_, ?_⟩
  · intro t u ht hu
    exact Option.some.inj ((hA t ht).symm.trans (hA u hu))
  · rw [hC]
    split <;> simp
  · intro t ht
    have he := hE t (Or.inr ht)
    exact ⟨by rw [hC, if_neg he.1], he.2⟩
  · intro t u ht hu
    rw [(hE t (Or.inr ht)).2, (hE u (Or.inr hu)).2]

theorem claim_C9_threadsafe_singleton_witness :
    ThreadSafe.Reachable ThreadSafe.w5 ∧
    ((∀ t u, ThreadSafe.critPC (ThreadSafe.w5.pc t) →
        ThreadSafe.critPC (ThreadSafe.w5.pc u) → t = u) ∧
     ThreadSafe.w5.constructions ≤ 1 ∧
     (∀ t, ThreadSafe.w5.pc t = .done →
       ThreadSafe.w5.constructions = 1 ∧
         ThreadSafe.w5.res t = ThreadSafe.w5.inst) ∧
     (∀ t u, ThreadSafe.w5.pc t = .done → ThreadSafe.w5.pc u = .done →
       ThreadSafe.w5.res t = ThreadSafe.w5.res u)) := by
  have hr : ThreadSafe.Reachable ThreadSafe.w5 := by
    have s1 : ThreadSafe.Step ThreadSafe.TState.init ThreadSafe.w1 :=
      ThreadSafe.Step.acquire _ 0 rfl rfl
    have s2 : ThreadSafe.Step ThreadSafe.w1 ThreadSafe.w2 :=
      ThreadSafe.Step.checkNull _ 0 rfl rfl rfl
    have s3 : ThreadSafe.Step ThreadSafe.w2 ThreadSafe.w3 :=
      ThreadSafe.Step.constructStep _ 0 rfl rfl
    have s4 : ThreadSafe.Step ThreadSafe.w3 ThreadSafe.w4 :=
      ThreadSafe.Step.readStep _ 0 0 rfl rfl rfl
    have s5 : ThreadSafe.Step ThreadSafe.w4 ThreadSafe.w5 :=
      ThreadSafe.Step.releaseStep _ 0 rfl rfl
    exact Relation.ReflTransGen.tail (Relation.ReflTransGen.tail
      (Relation.ReflTransGen.tail (Relation.ReflTransGen.tail
        (Relation.ReflTransGen.single s1) s2) s3) s4) s5
  exact ⟨hr, claim_C9_threadsafe_singleton _ hr⟩

/-- C10: `clone()` on a `Circle` or `Rectangle` prototype returns a new
object — a fresh allocation, hence an identity distinct from the
prototype's — whose attributes equal the prototype's, so the clone's
`draw()` output equals the prototype's. -/
theorem claim_C10_prototype_clone (c : Prototype.Circle)
    (r : Prototype.Rectangle) (fc fr : Nat)
    (hc : c.id < fc) (hr : r.id < fr) :
    ((c.clone fc).id ≠ c.id ∧ (c.clone fc).radius = c.radius ∧
      (c.clone fc).draw = c.draw) ∧
    ((r.clone fr).id ≠ r.id ∧ (r.clone fr).width = r.width ∧
      (r.clone fr).height = r.height ∧ (r.clone fr).draw = r.draw) :=
  ⟨⟨ne_of_gt hc, rfl, rfl⟩, ⟨ne_of_gt hr, rfl, rfl, rfl⟩⟩

theorem claim_C10_prototype_clone_witness :
    ((⟨0, 10⟩ : Prototype.Circle).id < 1 ∧
      (⟨1, 5, 8⟩ : Prototype.Rectangle).id < 2) ∧
    ((((⟨0, 10⟩ : Prototype.Circle).clone 1).id ≠
        (⟨0, 10⟩ : Prototype.Circle).id ∧
      ((⟨0, 10⟩ : Prototype.Circle).clone 1).radius =
        (⟨0, 10⟩ : Prototype.Circle).radius ∧
      ((⟨0, 10⟩ : Prototype.Circle).clone 1).draw =
        (⟨0, 10⟩ : Prototype.Circle).draw) ∧
    (((⟨1, 5, 8⟩ : Prototype.Rectangle).clone 2).id ≠
        (⟨1, 5, 8⟩ : Prototype.Rectangle).id ∧
      ((⟨1, 5, 8⟩ : Prototype.Rectangle).clone 2).width =
        (⟨1, 5, 8⟩ : Prototype.Rectangle).width ∧
      ((⟨1, 5, 8⟩ : Prototype.Rectangle).clone 2).height =
        (⟨1, 5, 8⟩ : Prototype.Rectangle).height ∧
      ((⟨1, 5, 8⟩ : Prototype.Rectangle).clone 2).draw =
        (⟨1, 5, 8⟩ : Prototype.Rectangle).draw)) :=
  ⟨⟨by decide, by decide⟩,
   claim_C10_prototype_clone ⟨0, 10⟩ ⟨1, 5, 8⟩ 1 2 (by decide) (by decide)⟩

end DesignPatterns
